import Mathlib

/-!
Shallow embedding of the Google-Maps lead-generation pipeline
(src/execution/extract_website_contacts.py and src/execution/gmaps_lead_pipeline.py)
and proofs of the frozen claims about it.

Python dynamic values are modelled as follows: Python sets built by repeated
insertion become insertion-ordered duplicate-free lists; Python dicts become
association lists (insertion-ordered key/value pairs); absent dict keys become
Option.none fields; exceptions become Option/Except values; the HTTP client and
the search provider become explicit oracle functions supplied as parameters.
ASCII strings are assumed throughout (Python str.lower and the regex character
classes are modelled on ASCII, which covers every concrete string appearing in
the source and in the proofs below).
-/

namespace LeadPipeline

/-! Python set and dict modeling helpers. -/

/-- Insertion into a Python set, modelled as an insertion-ordered dedup list. -/
def pyInsert (l : List String) (x : String) : List String :=
  if x ∈ l then l else l ++ [x]

/-- Python set.update: insert every element of xs in order. -/
def pyUnion (l : List String) (xs : List String) : List String :=
  xs.foldl pyInsert l

/-- Python str.lower for ASCII strings. -/
def pyLower (s : String) : String :=
  ⟨s.data.map Char.toLower⟩

/-- Python str.endswith. -/
def pyEndsWith (s suffix : String) : Bool :=
  suffix.data.isSuffixOf s.data

/-- Python str.startswith. -/
def pyStartsWith (s p : String) : Bool :=
  p.data.isPrefixOf s.data

/-! Faithful model of the email regex
    given in extract_website_contacts.py line 24 together with re.findall
    semantics (leftmost, non-overlapping, greedy with backtracking). -/

/-- Character class of the local part of the email pattern. -/
def isLocalChar (c : Char) : Bool :=
  c.isAlpha || c.isDigit || c = '.' || c = '_' || c = '%' || c = '+' || c = '-'

/-- Character class of the domain part of the email pattern. -/
def isDomainChar (c : Char) : Bool :=
  c.isAlpha || c.isDigit || c = '.' || c = '-'

/-- Length of the maximal alphabetic run at the head of l. -/
def alphaRunLen (l : List Char) : Nat :=
  (l.takeWhile Char.isAlpha).length

/-- Largest index m of a dot in dom (m at least 1, so the part before the dot is
nonempty) that is followed by at least two alphabetic characters.  This is the
split the greedy regex engine chooses inside the maximal domain-character run. -/
def lastDotSplit (dom : List Char) : Option Nat :=
  (List.range dom.length).foldl (fun acc m =>
    if 1 ≤ m ∧ dom.getD m ' ' = '.' ∧ 2 ≤ alphaRunLen (dom.drop (m+1)) then some m else acc)
    Option.none

/-- Attempt to match the email pattern at the head of l; on success return the
matched text and the number of characters consumed. -/
def tryMatchEmail (l : List Char) : Option (List Char × Nat) :=
  let loc := l.takeWhile isLocalChar
  if loc.isEmpty then Option.none
  else
    match l.drop loc.length with
    | '@' :: r2 =>
      let dom := r2.takeWhile isDomainChar
      match lastDotSplit dom with
      | Option.none => Option.none
      | some m =>
        let tld := (dom.drop (m+1)).takeWhile Char.isAlpha
        some (loc ++ '@' :: (dom.take m ++ '.' :: tld),
              loc.length + 1 + (m + 1 + tld.length))
    | _ => Option.none

/-- Model of re.findall for the email pattern: scan every position left to
right, emit each match and resume after it.  The fuel argument is bounded by
the input length; each successful match consumes at least one character, so the
fuel never runs out on the recursion path actually taken. -/
def findAllEmailsAux : Nat → List Char → List String
  | 0, _ => []
  | _, [] => []
  | fuel+1, c :: rest =>
    match tryMatchEmail (c :: rest) with
    | some (m, n) => String.mk m :: findAllEmailsAux fuel ((c :: rest).drop n)
    | Option.none => findAllEmailsAux fuel rest

/-- All matches of the email pattern in l, in order. -/
def findAllEmails (l : List Char) : List String :=
  findAllEmailsAux l.length l

/-- Extensions to ignore, from extract_website_contacts.py line 17. -/
def IGNORED_EXTS : List String :=
  [".png", ".jpg", ".jpeg", ".gif", ".css", ".js", ".svg", ".woff", ".mp4", ".pdf", ".zip"]

/-- Placeholder addresses filtered out, from extract_website_contacts.py line 34. -/
def PLACEHOLDER_EMAILS : List String :=
  ["name@example.com", "email@address.com", "you@yourdomain.com"]

/-- Body of the filter loop of extract_emails (extract_website_contacts.py
lines 29-36): drop a match whose lowercase form ends in a blocked extension or
equals a placeholder, otherwise add it (original case) to the set. -/
def emailFilterStep (acc : List String) (email : String) : List String :=
  if IGNORED_EXTS.any (fun ext => pyEndsWith (pyLower email) ext) then acc
  else if pyLower email ∈ PLACEHOLDER_EMAILS then acc
  else pyInsert acc email

/-- Model of extract_emails (extract_website_contacts.py lines 19-38): regex
findall, then the filter pass over the matches. -/
def extract_emails (text : String) : List String :=
  if text = "" then []
  else (findAllEmails text.data).foldl emailFilterStep []

/-! Substring occurrence utilities (model of Python's "in", str.find, str.split). -/

/-- Index of the first occurrence of pat in l (None if absent). -/
def findOcc (pat : List Char) : List Char → Option Nat
  | [] => if pat = [] then some 0 else Option.none
  | c :: rest =>
    if pat.isPrefixOf (c :: rest) then some 0
    else (findOcc pat rest).map (· + 1)

/-- Model of the Python "in" operator on strings. -/
def listContains (pat l : List Char) : Bool :=
  (findOcc pat l).isSome

/-- Model of the Python "in" operator on strings, string-typed. -/
def strContains (s pat : String) : Bool :=
  listContains pat.data s.data

/-- Split l at the first occurrence of pat: the part before and the part after. -/
def splitFirst (pat l : List Char) : Option (List Char × List Char) :=
  match findOcc pat l with
  | Option.none => Option.none
  | some i => some (l.take i, l.drop (i + pat.length))

/-! Model of the subset of urllib.parse used by the crawler.  URLs are kept as
strings; urlparse splits scheme://netloc/path (query and fragment are treated
as part of the path, and dot-segment resolution is not modelled - neither
matters for the properties proved below); urljoin handles absolute hrefs,
scheme-relative, root-relative and directory-relative hrefs. -/

/-- Components of a parsed URL. -/
structure Url where
  scheme : String
  netloc : String
  path : String
deriving DecidableEq, Repr

/-- Character allowed in a URL scheme. -/
def isSchemeChar (c : Char) : Bool :=
  c.isAlpha || c.isDigit || c = '+' || c = '-' || c = '.'

/-- Does the string start with a scheme followed by a colon? -/
def hasScheme (s : String) : Bool :=
  match findOcc [':'] s.data with
  | some i => 1 ≤ i && (s.data.take i).all isSchemeChar
  | Option.none => false

/-- Model of urllib.parse.urlparse on the scheme://netloc/path subset. -/
def urlparse (s : String) : Url :=
  match splitFirst "://".data s.data with
  | some (sch, rest) =>
    let netloc := rest.takeWhile (· ≠ '/')
    ⟨String.mk sch, String.mk netloc, String.mk (rest.drop netloc.length)⟩
  | Option.none =>
    match splitFirst [':'] s.data with
    | some (sch, rest) =>
      if 1 ≤ sch.length ∧ sch.all isSchemeChar then ⟨String.mk sch, "", String.mk rest⟩
      else ⟨"", "", s⟩
    | Option.none => ⟨"", "", s⟩

/-- Directory part of a path: everything up to and including the last slash
(the root slash when the path has none). -/
def dirOf (p : List Char) : List Char :=
  let d := (p.reverse.dropWhile (· ≠ '/')).reverse
  if d = [] then ['/'] else d

/-- Model of urllib.parse.urljoin on the subset exercised by the crawler. -/
def urljoin (base href : String) : String :=
  if href = "" then base
  else if hasScheme href then href
  else
    let b := urlparse base
    if pyStartsWith href "//" then b.scheme ++ ":" ++ href
    else if pyStartsWith href "/" then b.scheme ++ "://" ++ b.netloc ++ href
    else b.scheme ++ "://" ++ b.netloc ++ String.mk (dirOf b.path.data) ++ href

/-! Contact-page discovery and social-link extraction
    (extract_website_contacts.py lines 40-78).  A parsed page (BeautifulSoup
    value) is modelled by the list of href attributes of its anchors in
    document order; the falsy-soup guard of the source corresponds to an empty
    anchor list here. -/

/-- Keyword list from extract_website_contacts.py line 57. -/
def CONTACT_KEYWORDS : List String :=
  ["contact", "about", "team", "staff", "people", "leadership"]

/-- Platform list from extract_website_contacts.py line 43. -/
def SOCIAL_PLATFORMS : List String :=
  ["facebook", "twitter", "linkedin", "instagram", "youtube", "tiktok"]

/-- Body of the anchor loop of get_contact_pages (extract_website_contacts.py
lines 63-76): resolve the href against the base URL, skip external hosts, add
the link to the set when its lowercased path contains a keyword. -/
def contactPageStep (base_url : String) (acc : List String) (href : String) : List String :=
  if (urlparse (urljoin base_url href)).netloc ≠ (urlparse base_url).netloc then acc
  else if CONTACT_KEYWORDS.any
      (fun k => strContains (pyLower (urlparse (urljoin base_url href)).path) k) then
    pyInsert acc (urljoin base_url href)
  else acc

/-- Model of get_contact_pages (extract_website_contacts.py lines 55-78):
the anchor loop followed by the cap at 4 entries. -/
def get_contact_pages (anchors : List String) (base_url : String) : List String :=
  (anchors.foldl (contactPageStep base_url) []).take 4

/-- Model of extract_social_media (extract_website_contacts.py lines 40-53):
for each anchor href (lowercased for matching), record the original href under
the first platform whose name it contains, first match per platform wins. -/
def extract_social_media (anchors : List String) : List (String × String) :=
  anchors.foldl (fun socials href =>
    let href_lower := pyLower href
    SOCIAL_PLATFORMS.foldl (fun acc platform =>
      if strContains href_lower platform ∧ platform ∉ acc.map Prod.fst then
        acc ++ [(platform, href)]
      else acc) socials) []

/-! Model of the site crawler (extract_website_contacts.py lines 80-196).
    The HTTP client and the search provider are oracles: fetch returns None
    when the request raises (network error / timeout) and otherwise the status
    code and the page; search returns None when the provider raises or the
    duckduckgo_search import is missing, and otherwise the result snippet
    bodies. -/

/-- Fetched page: the extractable text (html2text output) and the anchor hrefs
(the BeautifulSoup view), both derived from the same response body. -/
structure Page where
  text : String
  anchors : List String
deriving DecidableEq, Repr

/-- Oracles standing for the HTTP client and the search provider. -/
structure CrawlEnv where
  fetch : String → Option (Nat × Page)
  search : String → Option (List String)

/-- Status considered successful by resp.raise_for_status (no exception). -/
def statusOk (s : Nat) : Bool :=
  s < 400

/-- Model of search_duckduckgo (extract_website_contacts.py lines 80-104):
take up to 5 result snippets, extract emails from each body into a set; any
provider failure yields the empty list. -/
def search_duckduckgo (env : CrawlEnv) (query : String) : List String :=
  match env.search query with
  | Option.none => []
  | some results => (results.take 5).foldl (fun acc body => pyUnion acc (extract_emails body)) []

/-- Result dictionary of scrape_website_contacts.  Each field is an Option:
none models an absent dict key (the source returns dicts with different key
sets on its three return paths). -/
structure ScrapeResult where
  error : Option String := Option.none
  emails : Option (List String) := Option.none
  social_media : Option (List (String × String)) := Option.none
  owner_info : Option (List (String × String)) := Option.none
  team_members : Option (List String) := Option.none
  phone_numbers : Option (List String) := Option.none
  business_hours : Option String := Option.none
  additional_contacts : Option (List String) := Option.none
  pages_scraped : Option Nat := Option.none
  search_enriched : Option Bool := Option.none
deriving DecidableEq, Repr

/-- Result dict holding only an error entry. -/
def errorOnly (msg : String) : ScrapeResult :=
  { error := some msg }

/-- URL normalization at extract_website_contacts.py lines 113-114. -/
def normalizeUrl (url : String) : String :=
  if pyStartsWith url "http" then url else "http://" ++ url

/-- Crawl phase of scrape_website_contacts (lines 128-155): fetch the home
page (raise_for_status), extract emails and social links from it, discover up
to 4 contact-like sub-pages and fetch each one (failures swallowed, status not
checked), collecting emails and the pages-scraped count.  A home-page failure
leaves everything empty - the source logs the error and falls through. -/
def crawlPhase (fetch : String → Option (Nat × Page)) (url : String) :
    List String × List (String × String) × Nat :=
  match fetch url with
  | some (status, page) =>
    if statusOk status then
      let emails0 := pyUnion [] (extract_emails page.text)
      let socials := extract_social_media page.anchors
      let sub_pages := get_contact_pages page.anchors url
      sub_pages.foldl (fun acc sub_url =>
        match fetch sub_url with
        | some (_, sub_page) =>
          (pyUnion acc.1 (extract_emails sub_page.text), acc.2.1, acc.2.2 + 1)
        | Option.none => acc) (emails0, socials, 1)
    else ([], [], 0)
  | Option.none => ([], [], 0)

/-- Query of the general search fallback (line 161). -/
def generalQuery (business_name : String) : String :=
  business_name ++ " email contact"

/-- Query of the social-platform-scoped search fallback (line 171). -/
def socialQuery (business_name : String) : String :=
  "site:facebook.com OR site:instagram.com OR site:linkedin.com \"" ++ business_name ++ "\" email"

/-- Model of scrape_website_contacts (extract_website_contacts.py lines
106-196): guard on a missing URL, normalize, crawl, then the two-stage search
fallback, and assemble the result dict.  The outer catch-all except of the
source can only fire on failures of the client constructor itself, which the
oracle model has no counterpart for, so the model always reaches the success-
shaped return (line 178) when a URL is provided. -/
def scrape_website_contacts (env : CrawlEnv) (url business_name : String) : ScrapeResult :=
  if url = "" then errorOnly "No URL provided"
  else
    let c := crawlPhase env.fetch (normalizeUrl url)
    let collected := c.1
    let step1 : List String × Bool :=
      if business_name ≠ "" ∧ collected = [] then
        let found_emails := search_duckduckgo env (generalQuery business_name)
        if found_emails ≠ [] then (pyUnion collected found_emails, true) else (collected, false)
      else (collected, false)
    let step2 : List String × Bool :=
      if business_name ≠ "" ∧ step1.1 = [] then
        let social_emails := search_duckduckgo env (socialQuery business_name)
        if social_emails ≠ [] then (pyUnion step1.1 social_emails, true) else step1
      else step1
    { error := Option.none
      emails := some step2.1
      social_media := some c.2.1
      owner_info := some []
      team_members := some []
      phone_numbers := some []
      business_hours := some ""
      additional_contacts := some []
      pages_scraped := some c.2.2
      search_enriched := some step2.2 }

/-! Model of the enrichment orchestrator (gmaps_lead_pipeline.py lines
468-524).  A business dict is modelled by the two attributes the orchestrator
reads (title and website; a missing or None attribute is the empty string,
matching the falsy test of the source).  The thread pool is modelled by a
worker function - Except.error stands for a worker raising - together with the
as_completed order, an arbitrary permutation of the submitted businesses. -/

/-- Business record attributes read by the orchestrator. -/
structure Business where
  title : String
  website : String
deriving DecidableEq, Repr

/-- One element of the enriched output list: the business paired with the
contacts dict. -/
structure Enriched where
  gmaps : Business
  contacts : ScrapeResult
deriving DecidableEq, Repr

/-- Model of enrich_businesses: businesses without a website get an
error-only result immediately; the others are processed by the worker in
completion order, a raising worker being converted to an error-only result. -/
def enrich_businesses (businesses : List Business)
    (work : Business → Except String ScrapeResult)
    (completed : List Business) : List Enriched :=
  let without_websites := businesses.filter (fun b => b.website = "")
  without_websites.map (fun b => ⟨b, errorOnly "No website available"⟩)
    ++ completed.map (fun b =>
        match work b with
        | Except.ok contacts => ⟨b, contacts⟩
        | Except.error e => ⟨b, errorOnly e⟩)

/-! Model of the record flattening and persistence layer
    (gmaps_lead_pipeline.py lines 45-114 and 441-465). -/

/-- Lead schema from gmaps_lead_pipeline.py lines 45-89. -/
def LEAD_COLUMNS : List String := [
  "lead_id",
  "scraped_at",
  "search_query",
  "business_name",
  "category",
  "address",
  "city",
  "state",
  "zip_code",
  "country",
  "phone",
  "website",
  "google_maps_url",
  "place_id",
  "rating",
  "review_count",
  "price_level",
  "emails",
  "additional_phones",
  "business_hours",
  "facebook",
  "twitter",
  "linkedin",
  "instagram",
  "youtube",
  "tiktok",
  "owner_name",
  "owner_title",
  "owner_email",
  "owner_phone",
  "owner_linkedin",
  "team_contacts",
  "additional_contact_methods",
  "pages_scraped",
  "search_enriched",
  "enrichment_status"]

/-- A flattened lead record: a string-valued dict, modelled as an association
list in insertion order. -/
def Lead := List (String × String)

instance : DecidableEq Lead := by
  unfold Lead
  infer_instance

/-- Model of Python dict.get(key, "") on a string dict. -/
def pyGet (lead : Lead) (key : String) : String :=
  match lead.lookup key with
  | some v => v
  | Option.none => ""

/-- The lead_id entry of a lead record (lead["lead_id"], defaulting like .get
for totality; every record built by the pipeline carries the key). -/
def leadId (lead : Lead) : String :=
  pyGet lead "lead_id"

/-- Row built for the sheet append, gmaps_lead_pipeline.py line 458:
[lead.get(col, "") for col in LEAD_COLUMNS]. -/
def sheetRow (lead : Lead) : List String :=
  LEAD_COLUMNS.map (fun col => pyGet lead col)

/-- Row written per lead to the CSV output, gmaps_lead_pipeline.py line 631:
[lead.get(col, "") for col in LEAD_COLUMNS]. -/
def csvRow (lead : Lead) : List String :=
  LEAD_COLUMNS.map (fun col => pyGet lead col)

/-- Lines of the CSV output (gmaps_lead_pipeline.py lines 627-631): the header
row LEAD_COLUMNS followed by one row per lead, in order. -/
def csvLines (leads : List Lead) : List (List String) :=
  LEAD_COLUMNS :: leads.map csvRow

/-- Model of append_leads_to_sheet (gmaps_lead_pipeline.py lines 441-465).
The worksheet is modelled by its list of data rows; the function returns the
worksheet after the call together with the returned count.  When no new leads
remain it performs no write and returns 0; otherwise it performs the single
batch append of exactly the filtered rows. -/
def append_leads_to_sheet (worksheet : List (List String)) (leads : List Lead)
    (existing_ids : List String) : List (List String) × Nat :=
  if leads.filter (fun lead => leadId lead ∉ existing_ids) = [] then (worksheet, 0)
  else (worksheet ++ (leads.filter (fun lead => leadId lead ∉ existing_ids)).map sheetRow,
    (leads.filter (fun lead => leadId lead ∉ existing_ids)).length)

/-- Value shapes fed to stringify_value by flatten_lead: None, strings, lists
of strings (emails, phones, additional contacts) and string-keyed dicts. -/
inductive PyValue where
  | pynone
  | str (s : String)
  | list (l : List String)
  | dict (d : List (String × String))
deriving DecidableEq, Repr

/-- Model of str.join: sep.join(pieces). -/
def joinSep (sep : String) : List String → String
  | [] => ""
  | [x] => x
  | x :: y :: rest => x ++ sep ++ joinSep sep (y :: rest)

/-- Model of stringify_value (gmaps_lead_pipeline.py lines 98-114) on the
value shapes the pipeline passes it: None becomes "", strings pass through,
lists drop falsy (empty) entries and are comma-joined, dicts drop falsy values
and join "key: value" parts with "; ". -/
def stringify_value : PyValue → String
  | PyValue.pynone => ""
  | PyValue.str s => s
  | PyValue.list l => joinSep ", " (l.filter (fun v => v ≠ ""))
  | PyValue.dict d =>
    let parts := (d.filter (fun kv => kv.2 ≠ "")).map (fun kv => kv.1 ++ ": " ++ kv.2)
    if parts = [] then "" else joinSep "; " parts

/-- Length bound for the occurrence returned by findOcc. -/
theorem findOcc_le {pat l : List Char} {i : Nat} (h : findOcc pat l = some i) :
    i + pat.length ≤ l.length := by
  induction l generalizing i with
  | nil =>
    unfold findOcc at h
    split at h
    · simp_all
    · simp_all
  | cons c rest ih =>
    unfold findOcc at h
    split at h
    · rename_i hpre
      rw [List.isPrefixOf_iff_prefix] at hpre
      have := hpre.length_le
      simp at h
      omega
    · rcases Option.map_eq_some'.mp h with ⟨j, hj, hij⟩
      have := ih hj
      simp [List.length_cons]
      omega

/-- splitFirst consumes at least the separator, so the tail part shrinks. -/
theorem splitFirst_length {pat l pre post : List Char} (hpat : pat ≠ [])
    (h : splitFirst pat l = some (pre, post)) : post.length < l.length := by
  unfold splitFirst at h
  cases hfo : findOcc pat l with
  | none => rw [hfo] at h; exact absurd h (by simp)
  | some i =>
    rw [hfo] at h
    have hle := findOcc_le hfo
    have hplen : 1 ≤ pat.length := by
      cases pat with
      | nil => exact absurd rfl hpat
      | cons a t => simp
    simp at h
    have hpost : post = l.drop (i + pat.length) := h.2.symm
    subst hpost
    simp [List.length_drop]
    omega

/-- Model of str.split(sep) for a nonempty separator: split at each
occurrence left to right.  (Python raises on an empty separator; the model
returns the string whole in that degenerate case, which the pipeline never
hits.) -/
def splitSepList (sep : List Char) (l : List Char) : List (List Char) :=
  if hs : sep = [] then [l]
  else
    match hm : splitFirst sep l with
    | Option.none => [l]
    | some (pre, post) => pre :: splitSepList sep post
termination_by l.length
decreasing_by exact splitFirst_length hs hm

/-- String-typed str.split(sep). -/
def splitSep (sep s : String) : List String :=
  (splitSepList sep.data s.data).map String.mk

/-- Parse back a comma-joined list with the same separator (the round-trip
reading direction named by the spec). -/
def parseJoinedList (s : String) : List String :=
  splitSep ", " s

/-- Parse back a flattened dict with the same separators: split entries on
"; ", then each entry on ": " into key and value. -/
def parseJoinedDict (s : String) : List (String × String) :=
  (splitSep "; " s).map (fun piece =>
    match splitSep ": " piece with
    | [k, v] => (k, v)
    | _ => (piece, ""))

/-! MD5 (RFC 1321), used by generate_lead_id via hashlib.md5.  Messages are
byte lists; 32-bit words are Nats reduced modulo 2^32. -/

/-- All-ones 32-bit mask. -/
def mask32 : Nat := 4294967295

/-- Addition modulo 2^32. -/
def add32 (x y : Nat) : Nat := (x + y) % 4294967296

/-- Left rotation of a 32-bit word. -/
def rotl32 (x s : Nat) : Nat := ((x <<< s) ||| (x >>> (32 - s))) &&& mask32

/-- Bitwise complement of a 32-bit word. -/
def not32 (x : Nat) : Nat := x ^^^ mask32

/-- Round functions F, G, H, I of RFC 1321. -/
def mdF (b c d : Nat) : Nat := (b &&& c) ||| (not32 b &&& d)

/-- Round function G. -/
def mdG (b c d : Nat) : Nat := (b &&& d) ||| (c &&& not32 d)

/-- Round function H. -/
def mdH (b c d : Nat) : Nat := b ^^^ c ^^^ d

/-- Round function I. -/
def mdI (b c d : Nat) : Nat := c ^^^ (b ||| not32 d)

/-- Sine-derived constant table K of RFC 1321. -/
def md5K : List Nat := [
  3614090360, 3905402710, 606105819, 3250441966, 4118548399, 1200080426, 2821735955, 4249261313,
  1770035416, 2336552879, 4294925233, 2304563134, 1804603682, 4254626195, 2792965006, 1236535329,
  4129170786, 3225465664, 643717713, 3921069994, 3593408605, 38016083, 3634488961, 3889429448,
  568446438, 3275163606, 4107603335, 1163531501, 2850285829, 4243563512, 1735328473, 2368359562,
  4294588738, 2272392833, 1839030562, 4259657740, 2763975236, 1272893353, 4139469664, 3200236656,
  681279174, 3936430074, 3572445317, 76029189, 3654602809, 3873151461, 530742520, 3299628645,
  4096336452, 1126891415, 2878612391, 4237533241, 1700485571, 2399980690, 4293915773, 2240044497,
  1873313359, 4264355552, 2734768916, 1309151649, 4149444226, 3174756917, 718787259, 3951481745]

/-- Per-round shift table of RFC 1321. -/
def md5S : List Nat := [
  7, 12, 17, 22, 7, 12, 17, 22, 7, 12, 17, 22, 7, 12, 17, 22,
  5, 9, 14, 20, 5, 9, 14, 20, 5, 9, 14, 20, 5, 9, 14, 20,
  4, 11, 16, 23, 4, 11, 16, 23, 4, 11, 16, 23, 4, 11, 16, 23,
  6, 10, 15, 21, 6, 10, 15, 21, 6, 10, 15, 21, 6, 10, 15, 21]

/-- One of the 64 MD5 rounds applied to the state (a, b, c, d). -/
def md5Round (M : List Nat) (st : Nat × Nat × Nat × Nat) (i : Nat) : Nat × Nat × Nat × Nat :=
  let a := st.1
  let b := st.2.1
  let c := st.2.2.1
  let d := st.2.2.2
  let fg : Nat × Nat :=
    if i < 16 then (mdF b c d, i)
    else if i < 32 then (mdG b c d, (5*i + 1) % 16)
    else if i < 48 then (mdH b c d, (3*i + 5) % 16)
    else (mdI b c d, (7*i) % 16)
  let tmp := add32 (add32 (add32 a fg.1) (md5K.getD i 0)) (M.getD fg.2 0)
  (d, add32 b (rotl32 tmp (md5S.getD i 0)), b, c)

/-- Little-endian 32-bit words of a 64-byte block. -/
def blockWords (block : List Nat) : List Nat :=
  (List.range 16).map (fun j =>
    block.getD (4*j) 0 + 256 * block.getD (4*j+1) 0
      + 65536 * block.getD (4*j+2) 0 + 16777216 * block.getD (4*j+3) 0)

/-- MD5 compression of one 64-byte block into the chaining state. -/
def md5Compress (st : Nat × Nat × Nat × Nat) (block : List Nat) : Nat × Nat × Nat × Nat :=
  let M := blockWords block
  let r := (List.range 64).foldl (md5Round M) st
  (add32 st.1 r.1, add32 st.2.1 r.2.1, add32 st.2.2.1 r.2.2.1, add32 st.2.2.2 r.2.2.2)

/-- MD5 padding: append 0x80, zero-fill to 56 mod 64, append the bit length
as a little-endian 64-bit quantity. -/
def md5Pad (msg : List Nat) : List Nat :=
  let len := msg.length
  let zeros := (120 - ((len + 1) % 64)) % 64
  let bits := (len * 8) % 18446744073709551616
  msg ++ [128] ++ List.replicate zeros 0
    ++ (List.range 8).map (fun j => (bits >>> (8*j)) &&& 255)

/-- Block loop with explicit fuel (the fuel is bounded by the list length and
each step consumes 64 bytes of a nonempty list, so it never runs out on the
path taken). -/
def toBlocksAux : Nat → List Nat → List (List Nat)
  | 0, _ => []
  | fuel+1, l => if l = [] then [] else l.take 64 :: toBlocksAux fuel (l.drop 64)

/-- Split a byte list whose length is a multiple of 64 into blocks. -/
def toBlocks (l : List Nat) : List (List Nat) :=
  toBlocksAux l.length l

/-- Little-endian bytes of a 32-bit word. -/
def wordBytesLE (w : Nat) : List Nat :=
  [w &&& 255, (w >>> 8) &&& 255, (w >>> 16) &&& 255, (w >>> 24) &&& 255]

/-- The 16 digest bytes of MD5 applied to a byte message. -/
def md5Bytes (msg : List Nat) : List Nat :=
  let st := (toBlocks (md5Pad msg)).foldl md5Compress
    (1732584193, 4023233417, 2562383102, 271733878)
  wordBytesLE st.1 ++ wordBytesLE st.2.1 ++ wordBytesLE st.2.2.1 ++ wordBytesLE st.2.2.2

/-- Lowercase hex digit for a value below 16. -/
def hexDigit (n : Nat) : Char :=
  "0123456789abcdef".data.getD n '0'

/-- Lowercase hex string of a byte list. -/
def bytesToHex (bytes : List Nat) : String :=
  ⟨bytes.foldr (fun b acc => hexDigit (b / 16) :: hexDigit (b % 16) :: acc) []⟩

/-- hashlib.md5(...).hexdigest() on a byte message. -/
def md5Hex (msg : List Nat) : String :=
  bytesToHex (md5Bytes msg)

/-- UTF-8 encoding of one character. -/
def utf8Encode (c : Char) : List Nat :=
  let n := c.toNat
  if n < 128 then [n]
  else if n < 2048 then [192 ||| (n >>> 6), 128 ||| (n &&& 63)]
  else if n < 65536 then [224 ||| (n >>> 12), 128 ||| ((n >>> 6) &&& 63), 128 ||| (n &&& 63)]
  else [240 ||| (n >>> 18), 128 ||| ((n >>> 12) &&& 63),
        128 ||| ((n >>> 6) &&& 63), 128 ||| (n &&& 63)]

/-- Python str.encode(): the UTF-8 bytes of a string. -/
def strBytes (s : String) : List Nat :=
  s.data.foldr (fun c acc => utf8Encode c ++ acc) []

/-- Model of generate_lead_id (gmaps_lead_pipeline.py lines 92-95): the first
12 hex digits of the MD5 of the lowercased "name|address" string. -/
def generate_lead_id (business_name address : String) : String :=
  let unique_string := pyLower (business_name ++ "|" ++ address)
  (md5Hex (strBytes unique_string)).take 12

/-- Modelled from the spec: the lead-id formula as the spec sentence words it,
a fixed-length (12 hex digit) MD5-based hash of lowercase(business.name) +
"|" + business.address, with the address NOT lowercased.  Defined only to be
compared against generate_lead_id, which is translated from the source. -/
def lead_id_spec_formula (business_name address : String) : String :=
  (md5Hex (strBytes (pyLower business_name ++ "|" ++ address))).take 12

/-! Helper lemmas about the Python-set model. -/

/-- Membership after a set insertion. -/
theorem mem_pyInsert {l : List String} {y x : String} :
    x ∈ pyInsert l y ↔ x ∈ l ∨ x = y := by
  unfold pyInsert
  split
  · rename_i h
    constructor
    · exact Or.inl
    · rintro (hx | rfl)
      · exact hx
      · exact h
  · simp [List.mem_append]

/-- Set insertion preserves duplicate-freedom. -/
theorem nodup_pyInsert {l : List String} (h : l.Nodup) (y : String) :
    (pyInsert l y).Nodup := by
  unfold pyInsert
  split
  · exact h
  · rename_i hy
    simp [List.nodup_append, h, hy]

/-- Repeated set insertion preserves duplicate-freedom. -/
theorem nodup_foldl_pyInsert (xs : List String) :
    ∀ acc : List String, acc.Nodup → (xs.foldl pyInsert acc).Nodup := by
  induction xs with
  | nil => intro acc h; exact h
  | cons x rest ih =>
    intro acc h
    simp only [List.foldl_cons]
    exact ih _ (nodup_pyInsert h x)

/-- set.update preserves duplicate-freedom. -/
theorem nodup_pyUnion {acc : List String} (h : acc.Nodup) (xs : List String) :
    (pyUnion acc xs).Nodup :=
  nodup_foldl_pyInsert xs acc h

/-- Inserting pairwise-distinct fresh elements appends them in order. -/
theorem foldl_pyInsert_eq_append :
    ∀ (xs acc : List String), xs.Nodup → (∀ x ∈ xs, x ∉ acc) →
      xs.foldl pyInsert acc = acc ++ xs := by
  intro xs
  induction xs with
  | nil => intro acc _ _; simp
  | cons x rest ih =>
    intro acc hnd hdisj
    simp only [List.foldl_cons]
    obtain ⟨hxr, hrest⟩ := List.nodup_cons.mp hnd
    have hx : x ∉ acc := hdisj x (List.mem_cons_self x rest)
    have hstep : pyInsert acc x = acc ++ [x] := by
      unfold pyInsert
      rw [if_neg hx]
    rw [hstep, ih (acc ++ [x]) hrest ?fresh]
    · simp
    case fresh =>
      intro y hy
      simp only [List.mem_append, List.mem_singleton]
      rintro (hya | rfl)
      · exact hdisj y (List.mem_cons_of_mem x hy) hya
      · exact hxr hy

/-- Union into the empty set of an already duplicate-free list is the list. -/
theorem pyUnion_nil_of_nodup {l : List String} (h : l.Nodup) : pyUnion [] l = l := by
  unfold pyUnion
  rw [foldl_pyInsert_eq_append l [] h (by intro x _ hx; exact absurd hx (List.not_mem_nil x))]
  simp

/-- search_duckduckgo returns a duplicate-free list. -/
theorem nodup_search_duckduckgo (env : CrawlEnv) (q : String) :
    (search_duckduckgo env q).Nodup := by
  have hgen : ∀ (rs acc : List String), acc.Nodup →
      (rs.foldl (fun acc body => pyUnion acc (extract_emails body)) acc).Nodup := by
    intro rs
    induction rs with
    | nil => intro acc h; exact h
    | cons r rest ih =>
      intro acc h
      simp only [List.foldl_cons]
      exact ih _ (nodup_pyUnion h _)
  unfold search_duckduckgo
  cases env.search q with
  | none => simp
  | some results => exact hgen _ [] List.nodup_nil

/-- Provenance and filter facts for the extract_emails loop: an element of the
folded set either was in the accumulator or is a kept match. -/
theorem mem_foldl_emailFilterStep :
    ∀ (ms acc : List String) (e : String), e ∈ ms.foldl emailFilterStep acc →
      e ∈ acc ∨ (e ∈ ms ∧
        (IGNORED_EXTS.any fun ext => pyEndsWith (pyLower e) ext) = false ∧
        pyLower e ∉ PLACEHOLDER_EMAILS) := by
  intro ms
  induction ms with
  | nil => intro acc e h; exact Or.inl h
  | cons m rest ih =>
    intro acc e h
    simp only [List.foldl_cons] at h
    rcases ih (emailFilterStep acc m) e h with h1 | h2
    · unfold emailFilterStep at h1
      split at h1
      · exact Or.inl h1
      · split at h1
        · exact Or.inl h1
        · rcases mem_pyInsert.mp h1 with h3 | rfl
          · exact Or.inl h3
          · rename_i hext hph
            refine Or.inr ⟨List.mem_cons_self _ _, ?_, hph⟩
            exact Bool.eq_false_iff.mpr hext
    · exact Or.inr ⟨List.mem_cons_of_mem m h2.1, h2.2⟩

/-- Each placeholder address is fixed by lowercasing. -/
theorem placeholder_lower_fixed :
    ∀ p ∈ PLACEHOLDER_EMAILS, pyLower p = p := by decide

/-- C7: for every text input, extract_emails is a total function returning the
empty set on empty input; no returned address ends (case-insensitively) in a
blocked non-document file extension, none equals a placeholder example
address, and every returned address is one of the regex matches of the text,
with its original case preserved. -/
theorem extract_emails_spec (text : String) :
    (text = "" → extract_emails text = []) ∧
    ∀ e ∈ extract_emails text,
      (∀ ext ∈ IGNORED_EXTS, pyEndsWith (pyLower e) ext = false) ∧
      e ∉ PLACEHOLDER_EMAILS ∧
      e ∈ findAllEmails text.data := by
  constructor
  · intro h
    unfold extract_emails
    rw [if_pos h]
  · intro e he
    unfold extract_emails at he
    split at he
    · exact absurd he (List.not_mem_nil e)
    · rcases mem_foldl_emailFilterStep _ [] e he with h1 | h2
      · exact absurd h1 (List.not_mem_nil e)
      · obtain ⟨hmem, hext, hph⟩ := h2
        refine ⟨?_, ?_, hmem⟩
        · intro ext hextmem
          simpa using List.any_eq_false.mp hext ext hextmem
        · intro heph
          exact hph (by rw [placeholder_lower_fixed e heph]; exact heph)

/-- Witness for C7 at a concrete text containing a blocked-extension match, a
placeholder match and a legitimate mixed-case address. -/
theorem extract_emails_spec_witness :
    (∀ ext ∈ IGNORED_EXTS,
      pyEndsWith (pyLower "Bob@Acme.com") ext = false) ∧
    "Bob@Acme.com" ∉ PLACEHOLDER_EMAILS ∧
    "Bob@Acme.com" ∈ findAllEmails (String.data "logo@site.png name@example.com Bob@Acme.com") :=
  (extract_emails_spec "logo@site.png name@example.com Bob@Acme.com").2
    "Bob@Acme.com" (by decide)

/-- The contact-page loop preserves duplicate-freedom of the page set. -/
theorem nodup_foldl_contactPageStep (base_url : String) (anchors : List String) :
    ∀ acc : List String, acc.Nodup → (anchors.foldl (contactPageStep base_url) acc).Nodup := by
  induction anchors with
  | nil => intro acc h; exact h
  | cons a rest ih =>
    intro acc h
    simp only [List.foldl_cons]
    refine ih _ ?_
    unfold contactPageStep
    split
    · exact h
    · split
      · exact nodup_pyInsert h _
      · exact h

/-- Every element the contact-page loop adds has the host of the base URL and
a keyword in its lowercased path. -/
theorem props_foldl_contactPageStep (base_url : String) (anchors : List String) :
    ∀ acc : List String,
      (∀ u ∈ acc, (urlparse u).netloc = (urlparse base_url).netloc ∧
        (CONTACT_KEYWORDS.any fun k => strContains (pyLower (urlparse u).path) k) = true) →
      ∀ u ∈ anchors.foldl (contactPageStep base_url) acc,
        (urlparse u).netloc = (urlparse base_url).netloc ∧
        (CONTACT_KEYWORDS.any fun k => strContains (pyLower (urlparse u).path) k) = true := by
  induction anchors with
  | nil => intro acc h; exact h
  | cons a rest ih =>
    intro acc hacc
    simp only [List.foldl_cons]
    refine ih _ ?_
    intro u hu
    unfold contactPageStep at hu
    split at hu
    · exact hacc u hu
    · rename_i hnet
      split at hu
      · rename_i hkey
        rcases mem_pyInsert.mp hu with h1 | rfl
        · exact hacc u h1
        · exact ⟨not_ne_iff.mp hnet, hkey⟩
      · exact hacc u hu

/-- Every element the contact-page loop adds is an anchor href resolved
against the base URL. -/
theorem provenance_foldl_contactPageStep (base_url : String) (anchors : List String) :
    ∀ acc : List String, ∀ u ∈ anchors.foldl (contactPageStep base_url) acc,
      u ∈ acc ∨ ∃ href ∈ anchors, u = urljoin base_url href := by
  induction anchors with
  | nil => intro acc u h; exact Or.inl h
  | cons a rest ih =>
    intro acc u h
    simp only [List.foldl_cons] at h
    rcases ih _ u h with h1 | ⟨href, hhref, rfl⟩
    · unfold contactPageStep at h1
      split at h1
      · exact Or.inl h1
      · split at h1
        · rcases mem_pyInsert.mp h1 with h2 | rfl
          · exact Or.inl h2
          · exact Or.inr ⟨a, List.mem_cons_self a rest, rfl⟩
        · exact Or.inl h1
    · exact Or.inr ⟨href, List.mem_cons_of_mem a hhref, rfl⟩

/-- C8: get_contact_pages returns at most 4 links, duplicate-free; every
returned link resolves an anchor href against the base URL, has the same host
as the base URL, and has a path containing one of the contact keywords
(case-insensitively). -/
theorem get_contact_pages_spec (anchors : List String) (base_url : String) :
    (get_contact_pages anchors base_url).length ≤ 4 ∧
    (get_contact_pages anchors base_url).Nodup ∧
    ∀ u ∈ get_contact_pages anchors base_url,
      (urlparse u).netloc = (urlparse base_url).netloc ∧
      (CONTACT_KEYWORDS.any fun k => strContains (pyLower (urlparse u).path) k) = true ∧
      ∃ href ∈ anchors, u = urljoin base_url href := by
  unfold get_contact_pages
  refine ⟨?_, ?_, ?_⟩
  · rw [List.length_take]
    exact min_le_left 4 _
  · exact (List.take_sublist 4 _).nodup (nodup_foldl_contactPageStep base_url anchors [] List.nodup_nil)
  · intro u hu
    have humem := List.take_subset 4 _ hu
    have hprops := props_foldl_contactPageStep base_url anchors []
      (by intro u hu0; exact absurd hu0 (List.not_mem_nil u)) u humem
    have hprov := provenance_foldl_contactPageStep base_url anchors [] u humem
    rcases hprov with h1 | h2
    · exact absurd h1 (List.not_mem_nil u)
    · exact ⟨hprops.1, hprops.2, h2⟩

/-- Witness for C8 at a concrete anchor list containing internal, external and
duplicate contact-like links. -/
theorem get_contact_pages_spec_witness :
    (urlparse "http://a.biz/contact").netloc = (urlparse "http://a.biz").netloc ∧
    (CONTACT_KEYWORDS.any fun k =>
      strContains (pyLower (urlparse "http://a.biz/contact").path) k) = true ∧
    ∃ href ∈ ["/contact", "/about-us", "http://other.com/contact", "/contact"],
      "http://a.biz/contact" = urljoin "http://a.biz" href :=
  (get_contact_pages_spec ["/contact", "/about-us", "http://other.com/contact", "/contact"]
    "http://a.biz").2.2 "http://a.biz/contact" (by decide)

/-- A failing home-page fetch leaves the crawl phase empty. -/
theorem crawlPhase_fetch_none {fetch : String → Option (Nat × Page)} {url : String}
    (h : fetch url = Option.none) : crawlPhase fetch url = ([], [], 0) := by
  unfold crawlPhase
  rw [h]

/-- An unavailable provider makes every search yield the empty list. -/
theorem search_duckduckgo_none {env : CrawlEnv} (h : ∀ q, env.search q = Option.none)
    (q : String) : search_duckduckgo env q = [] := by
  unfold search_duckduckgo
  rw [h q]

/-- C4 (amended): the crawl is a total function returning a result dict on
every input; a missing URL yields a dict carrying only the error entry (the
other keys are absent, not empty); for any provided URL the error key is
absent, and on total failure (every fetch raising and the search provider
unavailable) the remaining fields are all present and empty. -/
theorem scrape_total_spec (env : CrawlEnv) (url business_name : String) :
    (scrape_website_contacts env url business_name).error
      = (if url = "" then some "No URL provided" else Option.none) ∧
    (url = "" → scrape_website_contacts env url business_name = errorOnly "No URL provided") ∧
    (url ≠ "" → (∀ u, env.fetch u = Option.none) → (∀ q, env.search q = Option.none) →
      scrape_website_contacts env url business_name =
        { error := Option.none, emails := some [], social_media := some [],
          owner_info := some [], team_members := some [], phone_numbers := some [],
          business_hours := some "", additional_contacts := some [],
          pages_scraped := some 0, search_enriched := some false }) := by
  refine ⟨?_, ?_, ?_⟩
  · by_cases hurl : url = ""
    · simp [scrape_website_contacts, hurl, errorOnly]
    · simp [scrape_website_contacts, hurl]
  · intro hurl
    simp [scrape_website_contacts, hurl]
  · intro hurl hfetch hsearch
    have hc : crawlPhase env.fetch (normalizeUrl url) = ([], [], 0) :=
      crawlPhase_fetch_none (hfetch _)
    simp [scrape_website_contacts, hurl, hc, search_duckduckgo_none hsearch]

/-- Witness for C4 at the concrete always-failing environment. -/
theorem scrape_total_spec_witness :
    scrape_website_contacts ⟨fun _ => Option.none, fun _ => Option.none⟩
        "nosuchhost.example" "Beta" =
      { error := Option.none, emails := some [], social_media := some [],
        owner_info := some [], team_members := some [], phone_numbers := some [],
        business_hours := some "", additional_contacts := some [],
        pages_scraped := some 0, search_enriched := some false } :=
  (scrape_total_spec ⟨fun _ => Option.none, fun _ => Option.none⟩
      "nosuchhost.example" "Beta").2.2 (by decide) (fun _ => rfl) (fun _ => rfl)

/-- Counterexample to C4 as stated: on total failure (unreachable website,
unavailable provider) the error field is NOT populated, and on a missing URL
the other fields are absent rather than present-and-empty. -/
theorem scrape_total_claim_counterexample :
    (scrape_website_contacts ⟨fun _ => Option.none, fun _ => Option.none⟩
        "http://down.example" "Acme").error = Option.none ∧
    (scrape_website_contacts ⟨fun _ => Option.none, fun _ => Option.none⟩
        "" "Acme").emails = Option.none := by
  exact ⟨rfl, rfl⟩

/-- C3 (amended): the error field is set only when no URL is provided - for
any provided URL it is absent, even when the home-page fetch itself fails; in
the error case no page count is recorded at all; and for an unreachable
website with an unavailable search provider the result carries no error and an
empty email set. -/
theorem scrape_error_only_on_missing_url (env : CrawlEnv) (url business_name : String) :
    (url ≠ "" → (scrape_website_contacts env url business_name).error = Option.none) ∧
    ((scrape_website_contacts env url business_name).error ≠ Option.none →
      url = "" ∧ (scrape_website_contacts env url business_name).pages_scraped = Option.none) ∧
    (url ≠ "" → (∀ u, env.fetch u = Option.none) → (∀ q, env.search q = Option.none) →
      (scrape_website_contacts env url business_name).error = Option.none ∧
      (scrape_website_contacts env url business_name).emails = some []) := by
  refine ⟨?_, ?_, ?_⟩
  · intro hurl
    simp [scrape_website_contacts, hurl]
  · intro herr
    by_cases hurl : url = ""
    · refine ⟨hurl, ?_⟩
      simp [scrape_website_contacts, hurl, errorOnly]
    · exact absurd (by simp [scrape_website_contacts, hurl]) herr
  · intro hurl hfetch hsearch
    have hc : crawlPhase env.fetch (normalizeUrl url) = ([], [], 0) :=
      crawlPhase_fetch_none (hfetch _)
    constructor
    · simp [scrape_website_contacts, hurl]
    · simp [scrape_website_contacts, hurl, hc, search_duckduckgo_none hsearch]

/-- Witness for C3 at a concrete environment with a reachable page. -/
theorem scrape_error_only_on_missing_url_witness :
    (scrape_website_contacts
      ⟨fun _ => some (200, ⟨"welcome, write to sales@gamma.example", []⟩),
        fun _ => Option.none⟩
      "http://gamma.example" "Gamma").error = Option.none :=
  (scrape_error_only_on_missing_url
    ⟨fun _ => some (200, ⟨"welcome, write to sales@gamma.example", []⟩),
      fun _ => Option.none⟩
    "http://gamma.example" "Gamma").1 (by decide)

/-- Counterexample to C3 as stated: a business with an unreachable website, a
name, and an unavailable search fallback provider yields a result whose error
field is NOT set (the claim says it is set). -/
theorem scrape_error_claim_counterexample :
    (scrape_website_contacts ⟨fun _ => Option.none, fun _ => Option.none⟩
        "http://unreachable.example" "Bravo Plumbing").error = Option.none ∧
    (scrape_website_contacts ⟨fun _ => Option.none, fun _ => Option.none⟩
        "http://unreachable.example" "Bravo Plumbing").emails = some [] := by
  exact ⟨rfl, rfl⟩

/-- C5: the search fallback runs only when the crawl collected zero emails
and a business name is available (otherwise the result does not depend on the
search provider at all); the general query is attempted first, the
social-scoped query only when the first yields nothing; an attempt that yields
emails sets the search-enriched flag, which stays false when the crawl found
emails or both attempts yield nothing. -/
theorem search_fallback_policy (env : CrawlEnv) (url business_name : String)
    (hurl : url ≠ "") :
    (business_name = "" →
      (scrape_website_contacts env url business_name).emails
          = some (crawlPhase env.fetch (normalizeUrl url)).1 ∧
      (scrape_website_contacts env url business_name).search_enriched = some false) ∧
    ((crawlPhase env.fetch (normalizeUrl url)).1 ≠ [] →
      (scrape_website_contacts env url business_name).emails
          = some (crawlPhase env.fetch (normalizeUrl url)).1 ∧
      (scrape_website_contacts env url business_name).search_enriched = some false) ∧
    (business_name ≠ "" → (crawlPhase env.fetch (normalizeUrl url)).1 = [] →
      search_duckduckgo env (generalQuery business_name) ≠ [] →
      (scrape_website_contacts env url business_name).emails
          = some (search_duckduckgo env (generalQuery business_name)) ∧
      (scrape_website_contacts env url business_name).search_enriched = some true) ∧
    (business_name ≠ "" → (crawlPhase env.fetch (normalizeUrl url)).1 = [] →
      search_duckduckgo env (generalQuery business_name) = [] →
      search_duckduckgo env (socialQuery business_name) ≠ [] →
      (scrape_website_contacts env url business_name).emails
          = some (search_duckduckgo env (socialQuery business_name)) ∧
      (scrape_website_contacts env url business_name).search_enriched = some true) ∧
    (business_name ≠ "" → (crawlPhase env.fetch (normalizeUrl url)).1 = [] →
      search_duckduckgo env (generalQuery business_name) = [] →
      search_duckduckgo env (socialQuery business_name) = [] →
      (scrape_website_contacts env url business_name).emails = some [] ∧
      (scrape_website_contacts env url business_name).search_enriched = some false) ∧
    (∀ env2 : CrawlEnv, env2.fetch = env.fetch →
      (business_name = "" ∨ (crawlPhase env.fetch (normalizeUrl url)).1 ≠ []) →
      scrape_website_contacts env2 url business_name
        = scrape_website_contacts env url business_name) := by
  refine ⟨?_, ?_, ?_, ?_, ?_, ?_⟩
  · intro hname
    simp [scrape_website_contacts, hurl, hname]
  · intro hcrawl
    simp [scrape_website_contacts, hurl, hcrawl]
  · intro hname hcrawl hgen
    have hnd := nodup_search_duckduckgo env (generalQuery business_name)
    simp [scrape_website_contacts, hurl, hname, hcrawl, hgen,
      pyUnion_nil_of_nodup hnd]
  · intro hname hcrawl hgen hsoc
    have hnd := nodup_search_duckduckgo env (socialQuery business_name)
    simp [scrape_website_contacts, hurl, hname, hcrawl, hgen, hsoc,
      pyUnion_nil_of_nodup hnd]
  · intro hname hcrawl hgen hsoc
    simp [scrape_website_contacts, hurl, hname, hcrawl, hgen, hsoc]
  · intro env2 hfe hcase
    rcases hcase with hname | hcrawl
    · simp [scrape_website_contacts, hurl, hname, hfe]
    · simp [scrape_website_contacts, hurl, hcrawl, hfe]

/-- Witness for C5: a concrete environment where the crawl fails and the
general query finds an address, so the flag is set by the first attempt. -/
theorem search_fallback_policy_witness :
    (scrape_website_contacts
        ⟨fun _ => Option.none,
          fun q => if q = generalQuery "Acme" then some ["write info@acme.com"] else some []⟩
        "http://acme.example" "Acme").emails
      = some (search_duckduckgo
          ⟨fun _ => Option.none,
            fun q => if q = generalQuery "Acme" then some ["write info@acme.com"] else some []⟩
          (generalQuery "Acme")) ∧
    (scrape_website_contacts
        ⟨fun _ => Option.none,
          fun q => if q = generalQuery "Acme" then some ["write info@acme.com"] else some []⟩
        "http://acme.example" "Acme").search_enriched = some true :=
  (search_fallback_policy
      ⟨fun _ => Option.none,
        fun q => if q = generalQuery "Acme" then some ["write info@acme.com"] else some []⟩
      "http://acme.example" "Acme" (by decide)).2.2.1
    (by decide) (by decide) (by decide)

/-- C6: for every batch and every completion order of the worker pool (any
permutation of the businesses that have a website), enrich_businesses yields
exactly one pair per input business (the multiset of paired businesses is the
input); every business without a website is paired with a result carrying only
the "No website available" error and never reaches the crawl-and-fallback
worker; a worker failure is converted into an error-only result for that
business, and every other worker result is still delivered (no failure
terminates siblings or the call). -/
theorem enrich_businesses_spec (businesses completed : List Business)
    (work : Business → Except String ScrapeResult)
    (hperm : completed.Perm (businesses.filter (fun b => b.website ≠ ""))) :
    (enrich_businesses businesses work completed).length = businesses.length ∧
    ((enrich_businesses businesses work completed).map Enriched.gmaps).Perm businesses ∧
    (∀ b ∈ businesses, b.website = "" →
      Enriched.mk b (errorOnly "No website available")
        ∈ enrich_businesses businesses work completed) ∧
    (∀ b ∈ completed, ∀ e, work b = Except.error e →
      Enriched.mk b (errorOnly e) ∈ enrich_businesses businesses work completed) ∧
    (∀ b ∈ completed, ∀ c, work b = Except.ok c →
      Enriched.mk b c ∈ enrich_businesses businesses work completed) := by
  have hmapgm : (enrich_businesses businesses work completed).map Enriched.gmaps
      = businesses.filter (fun b => b.website = "") ++ completed := by
    unfold enrich_businesses
    rw [List.map_append, List.map_map, List.map_map]
    congr 1
    · refine (List.map_congr_left (fun b _ => ?_)).trans (List.map_id _)
      rfl
    · refine (List.map_congr_left (fun b _ => ?_)).trans (List.map_id _)
      simp only [Function.comp_apply, id_eq]
      cases hw : work b <;> simp [hw]
  have hsplit : (businesses.filter (fun b => b.website = "")
      ++ businesses.filter (fun b => b.website ≠ "")).Perm businesses := by
    have := List.filter_append_perm (fun b => b.website = "") businesses
    refine List.Perm.trans ?_ this
    refine List.Perm.append_left _ (List.Perm.of_eq ?_)
    refine List.filter_congr (fun b _ => ?_)
    simp
  have hgperm : ((enrich_businesses businesses work completed).map Enriched.gmaps).Perm
      businesses := by
    rw [hmapgm]
    exact (List.Perm.append_left _ hperm).trans hsplit
  refine ⟨?_, hgperm, ?_, ?_, ?_⟩
  · have := hgperm.length_eq
    simpa using this
  · intro b hb hweb
    unfold enrich_businesses
    refine List.mem_append_left _ ?_
    exact List.mem_map_of_mem _ (List.mem_filter.mpr ⟨hb, by simp [hweb]⟩)
  · intro b hb e hwork
    unfold enrich_businesses
    refine List.mem_append_right _ ?_
    refine List.mem_map.mpr ⟨b, hb, ?_⟩
    rw [hwork]
  · intro b hb c hwork
    unfold enrich_businesses
    refine List.mem_append_right _ ?_
    refine List.mem_map.mpr ⟨b, hb, ?_⟩
    rw [hwork]

/-- Witness for C6 at a concrete three-business batch: one business without a
website, one whose worker succeeds, one whose worker raises, with a completion
order differing from submission order. -/
theorem enrich_businesses_spec_witness :
    Enriched.mk ⟨"NoWeb Cafe", ""⟩ (errorOnly "No website available")
      ∈ enrich_businesses
          [⟨"NoWeb Cafe", ""⟩, ⟨"Okayshop", "http://ok.example"⟩,
            ⟨"Failco", "http://fail.example"⟩]
          (fun b => if b.title = "Failco" then Except.error "boom"
            else Except.ok { emails := some ["hi@ok.example"] })
          [⟨"Failco", "http://fail.example"⟩, ⟨"Okayshop", "http://ok.example"⟩] ∧
    Enriched.mk ⟨"Failco", "http://fail.example"⟩ (errorOnly "boom")
      ∈ enrich_businesses
          [⟨"NoWeb Cafe", ""⟩, ⟨"Okayshop", "http://ok.example"⟩,
            ⟨"Failco", "http://fail.example"⟩]
          (fun b => if b.title = "Failco" then Except.error "boom"
            else Except.ok { emails := some ["hi@ok.example"] })
          [⟨"Failco", "http://fail.example"⟩, ⟨"Okayshop", "http://ok.example"⟩] := by
  have h := enrich_businesses_spec
    [⟨"NoWeb Cafe", ""⟩, ⟨"Okayshop", "http://ok.example"⟩,
      ⟨"Failco", "http://fail.example"⟩]
    [⟨"Failco", "http://fail.example"⟩, ⟨"Okayshop", "http://ok.example"⟩]
    (fun b => if b.title = "Failco" then Except.error "boom"
      else Except.ok { emails := some ["hi@ok.example"] })
    (by decide)
  exact ⟨h.2.2.1 ⟨"NoWeb Cafe", ""⟩ (by decide) rfl,
    h.2.2.2.1 ⟨"Failco", "http://fail.example"⟩ (by decide) "boom" rfl⟩

/-- C2: append_leads_to_sheet keeps exactly the records whose lead_id is not
among the existing ids (a sublist of the input, so relative order is
preserved); when none remain it performs no write and returns 0; otherwise the
worksheet after the single append is the old worksheet followed by exactly the
filtered rows in order, and the returned count is their number. -/
theorem append_leads_spec (worksheet : List (List String)) (leads : List Lead)
    (existing_ids : List String) :
    (leads.filter (fun lead => leadId lead ∉ existing_ids) = [] →
      append_leads_to_sheet worksheet leads existing_ids = (worksheet, 0)) ∧
    (append_leads_to_sheet worksheet leads existing_ids).2
      = (leads.filter (fun lead => leadId lead ∉ existing_ids)).length ∧
    (leads.filter (fun lead => leadId lead ∉ existing_ids) ≠ [] →
      (append_leads_to_sheet worksheet leads existing_ids).1
        = worksheet ++ (leads.filter (fun lead => leadId lead ∉ existing_ids)).map sheetRow) ∧
    (leads.filter (fun lead => leadId lead ∉ existing_ids)).Sublist leads ∧
    (∀ lead, lead ∈ leads.filter (fun l => leadId l ∉ existing_ids) ↔
      lead ∈ leads ∧ leadId lead ∉ existing_ids) := by
  refine ⟨?_, ?_, ?_, List.filter_sublist leads, ?_⟩
  · intro h
    unfold append_leads_to_sheet
    rw [if_pos h]
  · unfold append_leads_to_sheet
    split
    · rename_i h
      rw [h]
      rfl
    · rfl
  · intro h
    unfold append_leads_to_sheet
    rw [if_neg h]
  · intro lead
    simp [List.mem_filter]

/-- Witness for C2: persisting a batch of 5 records of which 2 are already in
the existing-id snapshot appends exactly the other 3 rows, in their original
relative order, and returns 3. -/
theorem append_leads_spec_witness :
    (append_leads_to_sheet []
      [[("lead_id", "id1")], [("lead_id", "id2")], [("lead_id", "id3")],
        [("lead_id", "id4")], [("lead_id", "id5")]]
      ["id2", "id4"]).2 = 3 ∧
    (append_leads_to_sheet []
      [[("lead_id", "id1")], [("lead_id", "id2")], [("lead_id", "id3")],
        [("lead_id", "id4")], [("lead_id", "id5")]]
      ["id2", "id4"]).1
    = ([[("lead_id", "id1")], [("lead_id", "id3")], [("lead_id", "id5")]] : List Lead).map
        sheetRow := by
  constructor
  · exact (append_leads_spec []
      [[("lead_id", "id1")], [("lead_id", "id2")], [("lead_id", "id3")],
        [("lead_id", "id4")], [("lead_id", "id5")]] ["id2", "id4"]).2.1.trans (by decide)
  · exact ((append_leads_spec []
      [[("lead_id", "id1")], [("lead_id", "id2")], [("lead_id", "id3")],
        [("lead_id", "id4")], [("lead_id", "id5")]] ["id2", "id4"]).2.2.1
        (by decide)).trans (by decide)

/-- C10 (amended): the schema has exactly 36 named columns (not 33), pairwise
distinct, with lead_id first; the sheet rows and the CSV rows are built by the
identical projection over the same schema, every built row has exactly one
cell per column, the CSV header line is the schema itself, and every row the
persister appends is such a projection of one of its input records. -/
theorem lead_columns_spec :
    LEAD_COLUMNS.length = 36 ∧
    LEAD_COLUMNS.getD 0 "" = "lead_id" ∧
    LEAD_COLUMNS.Nodup ∧
    (∀ lead : Lead, sheetRow lead = csvRow lead) ∧
    (∀ lead : Lead, (sheetRow lead).length = LEAD_COLUMNS.length) ∧
    (∀ leads : List Lead, (csvLines leads).getD 0 [] = LEAD_COLUMNS) ∧
    (∀ (worksheet : List (List String)) (leads : List Lead) (existing_ids : List String),
      ∀ row ∈ (append_leads_to_sheet worksheet leads existing_ids).1.drop worksheet.length,
        row.length = LEAD_COLUMNS.length ∧ ∃ lead ∈ leads, row = sheetRow lead) := by
  refine ⟨by decide, by decide, by decide, fun lead => rfl, ?_, fun leads => rfl, ?_⟩
  · intro lead
    unfold sheetRow
    rw [List.length_map]
  · intro worksheet leads existing_ids row hrow
    unfold append_leads_to_sheet at hrow
    split at hrow
    · rw [List.drop_length] at hrow
      exact absurd hrow (List.not_mem_nil row)
    · rw [List.drop_left] at hrow
      rcases List.mem_map.mp hrow with ⟨lead, hlead, rfl⟩
      refine ⟨?_, lead, (List.filter_sublist leads).subset hlead, rfl⟩
      unfold sheetRow
      rw [List.length_map]

/-- Witness for C10: one appended row for a concrete record, with one cell per
column. -/
theorem lead_columns_spec_witness :
    (sheetRow [("lead_id", "w1")]).length = LEAD_COLUMNS.length ∧
    ∃ lead ∈ ([[("lead_id", "w1")]] : List Lead), sheetRow [("lead_id", "w1")] = sheetRow lead := by
  have h := lead_columns_spec.2.2.2.2.2.2 [] [[("lead_id", "w1")]] []
    (sheetRow [("lead_id", "w1")]) (by decide)
  exact h

/-- Counterexample to C10 as stated: the fixed schema does not have 33
columns. -/
theorem lead_columns_count_counterexample : LEAD_COLUMNS.length ≠ 33 := by decide

/-! Round-trip analysis of the flattening separators (C9). -/

/-- List-level counterpart of joinSep. -/
def joinSepList (sep : List Char) : List (List Char) → List Char
  | [] => []
  | [p] => p
  | p :: q :: rest => p ++ sep ++ joinSepList sep (q :: rest)

/-- joinSep and joinSepList agree through String.data. -/
theorem joinSep_data (sep : String) : ∀ pieces : List String,
    (joinSep sep pieces).data = joinSepList sep.data (pieces.map String.data)
  | [] => rfl
  | [x] => rfl
  | x :: y :: rest => by
    show (x ++ sep ++ joinSep sep (y :: rest)).data = _
    simp only [String.data_append]
    rw [joinSep_data sep (y :: rest)]
    rfl

/-- Rebuilding a string from its character data is the identity. -/
theorem mk_data (s : String) : String.mk s.data = s := by
  cases s
  rfl

/-- splitSepList unfolding when the separator does not occur. -/
theorem splitSepList_eq_single {sep l : List Char} (hsep : sep ≠ [])
    (h : splitFirst sep l = Option.none) : splitSepList sep l = [l] := by
  conv_lhs => rw [splitSepList.eq_def]
  rw [dif_neg hsep]
  split
  · rfl
  · rename_i pre post heq
    rw [h] at heq
    cases heq

/-- splitSepList unfolding at the first occurrence of the separator. -/
theorem splitSepList_eq_cons {sep l pre post : List Char} (hsep : sep ≠ [])
    (h : splitFirst sep l = some (pre, post)) :
    splitSepList sep l = pre :: splitSepList sep post := by
  conv_lhs => rw [splitSepList.eq_def]
  rw [dif_neg hsep]
  split
  · rename_i heq
    rw [h] at heq
    cases heq
  · rename_i pre' post' heq
    rw [h] at heq
    injection heq with heq2
    injection heq2 with hpre hpost
    rw [hpre, hpost]

/-- For a two-character separator with distinct characters, the first
occurrence in a piece followed by the separator is exactly at the end of the
piece, provided the separator does not occur inside the piece. -/
theorem findOcc_pair_append (a b : Char) (hab : a ≠ b) :
    ∀ (p t : List Char), findOcc [a, b] p = Option.none →
      findOcc [a, b] (p ++ a :: b :: t) = some p.length := by
  intro p
  induction p with
  | nil =>
    intro t _
    show findOcc [a, b] (a :: b :: t) = some 0
    unfold findOcc
    rw [if_pos (by simp [List.isPrefixOf])]
  | cons c p' ih =>
    intro t h
    unfold findOcc at h
    split at h
    · exact absurd h (by simp)
    · rename_i hpre
      have hrest : findOcc [a, b] p' = Option.none := by
        cases hfo : findOcc [a, b] p' with
        | none => rfl
        | some i =>
          rw [hfo] at h
          exact absurd h (by simp)
      have hnp : ¬([a, b].isPrefixOf (c :: (p' ++ a :: b :: t)) = true) := by
        cases p' with
        | nil =>
          intro hpre2
          simp [List.isPrefixOf] at hpre2
          exact hab (hpre2.1 ▸ hpre2.2.symm)
        | cons d p'' =>
          intro hpre2
          simp only [List.cons_append, List.isPrefixOf, Bool.and_eq_true, beq_iff_eq] at hpre2
          exact hpre (by simp [List.isPrefixOf, hpre2.1, hpre2.2.1])
      show findOcc [a, b] (c :: (p' ++ a :: b :: t)) = some (c :: p').length
      unfold findOcc
      rw [if_neg hnp, ih t hrest]
      rfl

/-- Splitting undoes joining for a two-character non-self-overlapping
separator, provided the separator occurs in no piece. -/
theorem splitSepList_join (a b : Char) (hab : a ≠ b) :
    ∀ pieces : List (List Char), pieces ≠ [] →
      (∀ p ∈ pieces, findOcc [a, b] p = Option.none) →
      splitSepList [a, b] (joinSepList [a, b] pieces) = pieces := by
  intro pieces
  induction pieces with
  | nil => intro h _; exact absurd rfl h
  | cons p rest ih =>
    intro _ hocc
    cases rest with
    | nil =>
      have hp := hocc p (List.mem_cons_self p [])
      refine splitSepList_eq_single (by simp) ?_
      unfold splitFirst
      rw [show joinSepList [a, b] [p] = p from rfl, hp]
    | cons q rest' =>
      have hp := hocc p (List.mem_cons_self p _)
      have hjoin : joinSepList [a, b] (p :: q :: rest')
          = p ++ a :: b :: joinSepList [a, b] (q :: rest') := by
        show p ++ [a, b] ++ joinSepList [a, b] (q :: rest') = _
        simp [List.append_assoc]
      have hfo : findOcc [a, b] (joinSepList [a, b] (p :: q :: rest')) = some p.length := by
        rw [hjoin]
        exact findOcc_pair_append a b hab p _ hp
      have hsf : splitFirst [a, b] (joinSepList [a, b] (p :: q :: rest'))
          = some ((joinSepList [a, b] (p :: q :: rest')).take p.length,
              (joinSepList [a, b] (p :: q :: rest')).drop (p.length + 2)) := by
        unfold splitFirst
        rw [hfo]
        rfl
      have htake : (joinSepList [a, b] (p :: q :: rest')).take p.length = p := by
        rw [hjoin]
        exact List.take_left p _
      have hdrop : (joinSepList [a, b] (p :: q :: rest')).drop (p.length + 2)
          = joinSepList [a, b] (q :: rest') := by
        rw [hjoin, show p ++ a :: b :: joinSepList [a, b] (q :: rest')
            = (p ++ [a, b]) ++ joinSepList [a, b] (q :: rest') by simp]
        exact List.drop_left' (by simp)
      rw [htake, hdrop] at hsf
      rw [splitSepList_eq_cons (by simp) hsf,
        ih (by simp) (fun x hx => hocc x (List.mem_cons_of_mem p hx))]

/-- String-level inverse: splitting on a two-character non-self-overlapping
separator undoes joining, when no piece contains the separator. -/
theorem splitSep_joinSep (a b : Char) (sep : String) (hsep : sep.data = [a, b])
    (hab : a ≠ b) (pieces : List String) (hne : pieces ≠ [])
    (hocc : ∀ p ∈ pieces, findOcc sep.data p.data = Option.none) :
    splitSep sep (joinSep sep pieces) = pieces := by
  unfold splitSep
  rw [joinSep_data, hsep]
  rw [splitSepList_join a b hab (pieces.map String.data)
    (by simpa using hne)
    (by
      intro p hp
      rcases List.mem_map.mp hp with ⟨s, hs, rfl⟩
      have := hocc s hs
      rwa [hsep] at this)]
  rw [List.map_map]
  refine (List.map_congr_left (fun s _ => mk_data s)).trans (List.map_id _)

/-- Counterexample to C9 as stated: the comma-join of lists and the
key-value join of mappings lose information - a single element containing the
separator flattens to the same string as two separate elements, and parsing
with the same separators does not recover the original value. -/
theorem stringify_roundtrip_counterexample :
    parseJoinedList (stringify_value (PyValue.list ["a, b"])) ≠ ["a, b"] ∧
    stringify_value (PyValue.list ["a, b"]) = stringify_value (PyValue.list ["a", "b"]) ∧
    parseJoinedDict (stringify_value (PyValue.dict [("a", "x; b: y")]))
      ≠ [("a", "x; b: y")] ∧
    stringify_value (PyValue.dict [("a", "x; b: y")])
      = stringify_value (PyValue.dict [("a", "x"), ("b", "y")]) := by
  have h1 : splitSep ", " "a, b" = ["a", "b"] :=
    splitSep_joinSep ',' ' ' ", " rfl (by decide) ["a", "b"] (by simp) (by decide)
  have h2 : splitSep "; " "a: x; b: y" = ["a: x", "b: y"] :=
    splitSep_joinSep ';' ' ' "; " rfl (by decide) ["a: x", "b: y"] (by simp) (by decide)
  have h3 : splitSep ": " "a: x" = ["a", "x"] :=
    splitSep_joinSep ':' ' ' ": " rfl (by decide) ["a", "x"] (by simp) (by decide)
  have h4 : splitSep ": " "b: y" = ["b", "y"] :=
    splitSep_joinSep ':' ' ' ": " rfl (by decide) ["b", "y"] (by simp) (by decide)
  refine ⟨?_, rfl, ?_, rfl⟩
  · show splitSep ", " "a, b" ≠ ["a, b"]
    rw [h1]
    decide
  · show (splitSep "; " "a: x; b: y").map _ ≠ _
    rw [h2]
    simp only [List.map_cons, List.map_nil]
    rw [h3, h4]
    decide

/-- C9 (amended): the flattening loses information in general (see the
counterexample), but it is invertible with the same separators on the values
the claim intends, namely nonempty lists of nonempty strings not containing
the list separator ", ", and nonempty mappings whose values are nonempty and
whose keys and values contain neither the pair separator ": " nor an
occurrence of the entry separator "; " in the flattened "key: value" entry. -/
theorem stringify_roundtrip_amended (l : List String) (d : List (String × String))
    (hl : l ≠ [])
    (hld : ∀ x ∈ l, x ≠ "" ∧ findOcc ", ".data x.data = Option.none)
    (hd : d ≠ [])
    (hdd : ∀ kv ∈ d, kv.2 ≠ "" ∧
      findOcc ": ".data kv.1.data = Option.none ∧
      findOcc ": ".data kv.2.data = Option.none ∧
      findOcc "; ".data (kv.1 ++ ": " ++ kv.2).data = Option.none) :
    parseJoinedList (stringify_value (PyValue.list l)) = l ∧
    parseJoinedDict (stringify_value (PyValue.dict d)) = d := by
  constructor
  · have hfilter : l.filter (fun v => v ≠ "") = l :=
      List.filter_eq_self.mpr (fun x hx => by simp [(hld x hx).1])
    show splitSep ", " (joinSep ", " (l.filter (fun v => v ≠ ""))) = l
    rw [hfilter]
    exact splitSep_joinSep ',' ' ' ", " rfl (by decide) l hl (fun p hp => (hld p hp).2)
  · have hfilter : d.filter (fun kv => kv.2 ≠ "") = d :=
      List.filter_eq_self.mpr (fun kv hkv => by simp [(hdd kv hkv).1])
    have hparts : (d.filter (fun kv => kv.2 ≠ "")).map
        (fun kv => kv.1 ++ ": " ++ kv.2) = d.map (fun kv => kv.1 ++ ": " ++ kv.2) := by
      rw [hfilter]
    have hpartsne : d.map (fun kv => kv.1 ++ ": " ++ kv.2) ≠ [] := by
      cases d with
      | nil => exact absurd rfl hd
      | cons kv rest => simp
    show parseJoinedDict (if (d.filter (fun kv => kv.2 ≠ "")).map
        (fun kv => kv.1 ++ ": " ++ kv.2) = [] then ""
      else joinSep "; " ((d.filter (fun kv => kv.2 ≠ "")).map
        (fun kv => kv.1 ++ ": " ++ kv.2))) = d
    rw [hparts, if_neg hpartsne]
    unfold parseJoinedDict
    rw [splitSep_joinSep ';' ' ' "; " rfl (by decide) _ hpartsne
      (by
        intro p hp
        rcases List.mem_map.mp hp with ⟨kv, hkv, rfl⟩
        exact (hdd kv hkv).2.2.2)]
    rw [List.map_map]
    refine (List.map_congr_left (fun kv hkv => ?_)).trans (List.map_id d)
    have hsplit : splitSep ": " (kv.1 ++ ": " ++ kv.2) = [kv.1, kv.2] := by
      have : splitSep ": " (joinSep ": " [kv.1, kv.2]) = [kv.1, kv.2] :=
        splitSep_joinSep ':' ' ' ": " rfl (by decide) [kv.1, kv.2] (by simp)
          (by
            intro p hp
            rcases List.mem_cons.mp hp with rfl | hp2
            · exact (hdd kv hkv).2.1
            · rcases List.mem_cons.mp hp2 with rfl | hp3
              · exact (hdd kv hkv).2.2.1
              · exact absurd hp3 (List.not_mem_nil p))
      exact this
    show (match splitSep ": " (kv.1 ++ ": " ++ kv.2) with
      | [k, v] => (k, v)
      | _ => (kv.1 ++ ": " ++ kv.2, "")) = kv
    rw [hsplit]

/-- Witness for C9 on concrete separator-free values. -/
theorem stringify_roundtrip_amended_witness :
    parseJoinedList (stringify_value (PyValue.list ["ann@x.co", "bob@y.co"]))
      = ["ann@x.co", "bob@y.co"] ∧
    parseJoinedDict (stringify_value (PyValue.dict
        [("facebook", "http://fb.example/a"), ("twitter", "http://tw.example/b")]))
      = [("facebook", "http://fb.example/a"), ("twitter", "http://tw.example/b")] :=
  stringify_roundtrip_amended ["ann@x.co", "bob@y.co"]
    [("facebook", "http://fb.example/a"), ("twitter", "http://tw.example/b")]
    (by simp) (by decide) (by simp) (by decide)

/-- Lowercasing distributes over string concatenation. -/
theorem pyLower_append (s t : String) : pyLower (s ++ t) = pyLower s ++ pyLower t := by
  show String.mk ((s ++ t).data.map Char.toLower)
    = String.mk (s.data.map Char.toLower) ++ String.mk (t.data.map Char.toLower)
  rw [String.data_append, List.map_append]
  rfl

/-- Lowercasing the full "name|address" string lowercases both halves around
the separator. -/
theorem pyLower_name_bar_address (n a : String) :
    pyLower (n ++ "|" ++ a) = pyLower n ++ "|" ++ pyLower a := by
  have hbar : pyLower "|" = "|" := by decide
  rw [pyLower_append, pyLower_append, hbar]

/-- C1 (amended): the lead identifier is the first 12 hex digits of the MD5 of
the lowercased full "name|address" string - the address is lowercased along
with the name, so lead_id is a pure function of (lowercased name, lowercased
address); in particular two calls whose names and addresses agree after
lowercasing (hence any two calls with identical inputs) yield the same id. -/
theorem generate_lead_id_spec (n1 n2 a1 a2 : String)
    (hn : pyLower n1 = pyLower n2) (ha : pyLower a1 = pyLower a2) :
    generate_lead_id n1 a1 = generate_lead_id n2 a2 ∧
    generate_lead_id n1 a1
      = (md5Hex (strBytes (pyLower n1 ++ "|" ++ pyLower a1))).take 12 := by
  constructor
  · unfold generate_lead_id
    rw [pyLower_name_bar_address, pyLower_name_bar_address, hn, ha]
  · unfold generate_lead_id
    rw [pyLower_name_bar_address]

/-- Witness for C1 at concrete mixed-case inputs. -/
theorem generate_lead_id_spec_witness :
    generate_lead_id "Acme Dental" "123 Main St"
      = generate_lead_id "ACME dental" "123 MAIN ST" ∧
    generate_lead_id "Acme Dental" "123 Main St"
      = (md5Hex (strBytes (pyLower "Acme Dental" ++ "|" ++ pyLower "123 Main St"))).take 12 :=
  generate_lead_id_spec "Acme Dental" "ACME dental" "123 Main St" "123 MAIN ST"
    (by decide) (by decide)

set_option maxRecDepth 100000 in
/-- Counterexample to C1 as stated: the id is not the hash of
lowercase(name) + "|" + address - an address containing an upper-case letter
is hashed in lowercased form, which changes the digest. -/
theorem generate_lead_id_formula_counterexample :
    generate_lead_id "A" "B" ≠ lead_id_spec_formula "A" "B" := by decide

end LeadPipeline
